import Mathlib

/-!
Verification of the globe visualization component (`src/components/ui/Globe.tsx`).

Shallow embedding conventions:
* JavaScript numbers are modelled as `ℚ` (only equality, ordering, `+`, `*`,
  `-`, `floor` occur in the modelled code); array indices and hex byte values
  as `Nat`.
* `Math.random()` is modelled by an ambient stream of draws: the loop in
  `genRandomNumbers` receives a stream `Nat → Nat` and the value
  `Math.floor(Math.random() * (max - min))` at the i-th call is modelled as
  `stream i % (max - min)`; an explicit fuel bounds the number of loop
  iterations, `none` meaning the loop has not finished within the fuel.
* The template string `rgba(r, g, b, a)` produced by a point's color closure
  is modelled by the record of its four components (`Rgba`).
-/

namespace Globe

/-- Result record of `hexToRgb` (`{r, g, b}` in the source). -/
structure Rgb where
  r : Nat
  g : Nat
  b : Nat
deriving DecidableEq, Repr

/-- Components of an `rgba(r, g, b, a)` color string. -/
structure Rgba where
  r : Nat
  g : Nat
  b : Nat
  a : ℚ
deriving DecidableEq, Repr

/-- The `Position` record type of `Globe.tsx` (one arc descriptor). -/
structure Position where
  order : ℚ
  startLat : ℚ
  startLng : ℚ
  endLat : ℚ
  endLng : ℚ
  arcAlt : ℚ
  color : String
deriving DecidableEq, Repr

/-- One element of the point dataset built by `_buildData` (the anonymous
record `{size, order, color, lat, lng}` in the source); `color` is the
closure over the decoded rgb triple. -/
structure RenderPoint where
  size : ℚ
  order : ℚ
  color : ℚ → Rgba
  lat : ℚ
  lng : ℚ

/-- The `GlobeConfig` type of `Globe.tsx`: every field optional. -/
structure GlobeConfig where
  pointSize : Option ℚ := none
  globeColor : Option String := none
  showAtmosphere : Option Bool := none
  atmosphereColor : Option String := none
  atmosphereAltitude : Option ℚ := none
  emissive : Option String := none
  emissiveIntensity : Option ℚ := none
  shininess : Option ℚ := none
  polygonColor : Option String := none
  ambientLight : Option String := none
  directionalLeftLight : Option String := none
  directionalTopLight : Option String := none
  pointLight : Option String := none
  arcTime : Option ℚ := none
  arcLength : Option ℚ := none
  rings : Option ℚ := none
  maxRings : Option ℚ := none
  autoRotate : Option Bool := none
  autoRotateSpeed : Option ℚ := none

/-- The merged configuration produced by the `defaultProps` object literal
(defaults spread-overridden by the caller's `globeConfig`). -/
structure MergedProps where
  pointSize : ℚ
  atmosphereColor : String
  showAtmosphere : Bool
  atmosphereAltitude : ℚ
  polygonColor : String
  globeColor : String
  emissive : String
  emissiveIntensity : ℚ
  shininess : ℚ
  arcTime : ℚ
  arcLength : ℚ
  rings : ℚ
  maxRings : ℚ

/-- `defaultProps` of `Globe.tsx` lines 104-119: built-in defaults, with
caller-supplied values taking precedence. -/
def defaultProps (g : GlobeConfig) : MergedProps where
  pointSize := g.pointSize.getD 1
  atmosphereColor := g.atmosphereColor.getD "#ffffff"
  showAtmosphere := g.showAtmosphere.getD true
  atmosphereAltitude := g.atmosphereAltitude.getD (1/10)
  polygonColor := g.polygonColor.getD "rgba(255,255,255,0.7)"
  globeColor := g.globeColor.getD "#1d072e"
  emissive := g.emissive.getD "#000000"
  emissiveIntensity := g.emissiveIntensity.getD (1/10)
  shininess := g.shininess.getD (9/10)
  arcTime := g.arcTime.getD 2000
  arcLength := g.arcLength.getD (9/10)
  rings := g.rings.getD 1
  maxRings := g.maxRings.getD 3

/-- The merged props of an empty caller configuration. -/
def defaultCfg : MergedProps := defaultProps {}

/-- The character class `[a-f\d]` with the `i` flag of the two regexes in
`hexToRgb`. -/
def isHexDigit (c : Char) : Bool :=
  c.isDigit || ('a' ≤ c && c ≤ 'f') || ('A' ≤ c && c ≤ 'F')

/-- Value of a single hex digit, as produced by `parseInt(_, 16)`. -/
def hexVal (c : Char) : Nat :=
  if c.isDigit then c.toNat - '0'.toNat
  else if 'a' ≤ c && c ≤ 'f' then c.toNat - 'a'.toNat + 10
  else c.toNat - 'A'.toNat + 10

/-- The `#?` prefix handling shared by both regexes of `hexToRgb`: an
optional leading `#` is not part of the captured digits. -/
def stripHash (cs : List Char) : List Char :=
  if cs.head? = some '#' then cs.tail else cs

/-- The shorthand expansion `String(hex).replace(shorthandRegex, ...)` in
`hexToRgb`: a full match `#?xyz` of hex digits is replaced by `xxyyzz`
(the replacement drops the `#` because it replaces the whole match);
otherwise the string is unchanged. -/
def expandShorthand (s : String) : String :=
  match stripHash s.data with
  | [r, g, b] =>
    if isHexDigit r && isHexDigit g && isHexDigit b then String.mk [r, r, g, g, b, b]
    else s
  | _ => s

/-- The final 6-digit regex match and `parseInt` calls of `hexToRgb`. -/
def parse6 (s : String) : Option Rgb :=
  match stripHash s.data with
  | [a, b, c, d, e, f] =>
    if isHexDigit a && isHexDigit b && isHexDigit c && isHexDigit d
        && isHexDigit e && isHexDigit f then
      some ⟨hexVal a * 16 + hexVal b, hexVal c * 16 + hexVal d, hexVal e * 16 + hexVal f⟩
    else none
  | _ => none

/-- `hexToRgb` of `Globe.tsx` lines 65-80. -/
def hexToRgb (s : String) : Option Rgb :=
  parse6 (expandShorthand s)

/-- Spec-side characterization (from the spec's words): a string is a hex
color if, after the optional `#`, it consists of exactly 3 or exactly 6 hex
digits. Used to state that everything else decodes to `null`. -/
def specHexColor (s : String) : Bool :=
  match stripHash s.data with
  | [a, b, c] => isHexDigit a && isHexDigit b && isHexDigit c
  | [a, b, c, d, e, f] =>
    isHexDigit a && isHexDigit b && isHexDigit c && isHexDigit d
      && isHexDigit e && isHexDigit f
  | _ => false

/-- The duplicate test of the `filteredPoints` callback:
`["lat", "lng"].every((k) => v2[k] === v[k])`. -/
def latLngEq (a b : RenderPoint) : Bool :=
  decide (a.lat = b.lat ∧ a.lng = b.lng)

/-- The emission loop of `_buildData` (lines 152-172): for each arc in
order, if its color decodes, push a point for the start endpoint and then
one for the end endpoint; otherwise push nothing. -/
def buildPoints (pointSize : ℚ) : List Position → List RenderPoint
  | [] => []
  | arc :: rest =>
    (match hexToRgb arc.color with
     | some rgb =>
       [{ size := pointSize, order := arc.order,
          color := fun t => ⟨rgb.r, rgb.g, rgb.b, 1 - t⟩,
          lat := arc.startLat, lng := arc.startLng },
        { size := pointSize, order := arc.order,
          color := fun t => ⟨rgb.r, rgb.g, rgb.b, 1 - t⟩,
          lat := arc.endLat, lng := arc.endLng }]
     | none => []) ++ buildPoints pointSize rest

/-- The dedup filter of `_buildData` (lines 175-182): keep `points[i]` iff
the first index holding the same `(lat, lng)` is `i` itself. -/
def filteredPoints (pts : List RenderPoint) : List RenderPoint :=
  (pts.enum.filter fun iv => pts.findIdx (fun v2 => latLngEq v2 iv.2) == iv.1).map Prod.snd

/-- `_buildData` of `Globe.tsx` lines 147-185 (the value passed to
`setGlobeData`). -/
def buildData (props : MergedProps) (data : List Position) : List RenderPoint :=
  filteredPoints (buildPoints props.pointSize data)

/-- The `(lat, lng)` pairs of an arc list's endpoints, in emission order
(start before end, arcs in input order). -/
def endpointPairs : List Position → List (ℚ × ℚ)
  | [] => []
  | a :: rest => (a.startLat, a.startLng) :: (a.endLat, a.endLng) :: endpointPairs rest

/-- The `while` loop of `genRandomNumbers` (lines 461-468). `fuel` bounds
the number of iterations; `i` counts the `Math.random()` calls made so far,
so that the draw of this iteration is `stream i % (max - min)`. -/
def genRandomAux (stream : Nat → Nat) (mn mx count : Nat) :
    Nat → Nat → List Nat → Option (List Nat)
  | fuel, i, arr =>
    if arr.length < count then
      match fuel with
      | 0 => none
      | fuel' + 1 =>
        let d := mx - mn
        let r := mn + (if d = 0 then 0 else stream i % d)
        if arr.contains r then genRandomAux stream mn mx count fuel' (i + 1) arr
        else genRandomAux stream mn mx count fuel' (i + 1) (arr ++ [r])
    else some arr

/-- `genRandomNumbers(min, max, count)` of `Globe.tsx` lines 461-468,
with the randomness stream and the iteration fuel made explicit. -/
def genRandomNumbers (stream : Nat → Nat) (mn mx count fuel : Nat) : Option (List Nat) :=
  genRandomAux stream mn mx count fuel 0 []

/-- One firing of the ring interval callback (lines 262-277): if the arc
list is empty the effect never installs the callback (modelled as `none`);
otherwise draw `floor(len * 4 / 5)` indices from `[0, len)` and replace the
ring dataset with the points whose position is among the drawn indices. -/
def ringTick (stream : Nat → Nat) (fuel : Nat) (data : List Position)
    (globeData : List RenderPoint) : Option (List RenderPoint) :=
  if data.length = 0 then none
  else
    match genRandomNumbers stream 0 data.length (data.length * 4 / 5) fuel with
    | none => none
    | some idxs =>
      some ((globeData.enum.filter fun iv => idxs.contains iv.1).map Prod.snd)

/-- `Math.round` on a non-negative number: round half away from zero. -/
def jsRound (q : ℚ) : ℤ := (q + 1/2).floor

/-- The literal array `[0.32, 0.28, 0.3]` of the `arcStroke` callback. -/
def arcStrokeChoices : List ℚ := [32/100, 28/100, 3/10]

/-- The `arcStroke` callback (lines 226-229): `q` models the value of the
`Math.random()` call of this invocation. -/
def arcStroke (q : ℚ) : ℚ :=
  arcStrokeChoices.getD (jsRound (q * 2)).toNat 0

/-- The static arc-layer configuration pushed by `startAnimation`
(lines 218-233). The `stroke` field is the per-arc callback, taking the
`Math.random()` draw of its invocation. -/
structure ArcLayer where
  startLat : Position → ℚ
  startLng : Position → ℚ
  endLat : Position → ℚ
  endLng : Position → ℚ
  color : Position → String
  altitude : Position → ℚ
  stroke : ℚ → ℚ
  dashLength : ℚ
  dashInitialGap : Position → ℚ
  dashGap : ℚ
  dashAnimateTime : Position → ℚ

/-- The chained `.arcsData(...).arcStartLat(...)...` configuration calls of
`startAnimation`, recorded as a value. -/
def configureArcLayer (props : MergedProps) : ArcLayer where
  startLat := fun d => d.startLat
  startLng := fun d => d.startLng
  endLat := fun d => d.endLat
  endLng := fun d => d.endLng
  color := fun d => d.color
  altitude := fun d => d.arcAlt
  stroke := arcStroke
  dashLength := props.arcLength
  dashInitialGap := fun d => d.order * 1
  dashGap := 15
  dashAnimateTime := fun _ => props.arcTime

/-- The numeric fields of the merged configuration object, used to state
that the configured dash gap is none of them. -/
def mergedNumericFields (p : MergedProps) : List ℚ :=
  [p.pointSize, p.atmosphereAltitude, p.emissiveIntensity, p.shininess,
   p.arcTime, p.arcLength, p.rings, p.maxRings]

/-- A concrete arc with decodable color, endpoints `(0,0)` and `(1,1)`. -/
def goodArc : Position := ⟨1, 0, 0, 1, 1, 1, "#ff0000"⟩

/-- A concrete arc with decodable (unprefixed) color, endpoints `(2,2)` and
`(3,3)`. -/
def goodArc2 : Position := ⟨2, 2, 2, 3, 3, 1, "00ff00"⟩

/-- A concrete arc whose color does not decode. -/
def badArc : Position := ⟨1, 0, 0, 1, 1, 1, "blue"⟩

/-- A concrete arc whose start and end coincide at `(0,0)`. -/
def coincidentArc : Position := ⟨1, 0, 0, 0, 0, 1, "#ff0000"⟩

/-- Ten copies of `goodArc`. -/
def tenArcs : List Position := List.replicate 10 goodArc

/-- The first point built from `[goodArc]`. -/
def globePoint0 : RenderPoint := ⟨1, 1, fun t => ⟨255, 0, 0, 1 - t⟩, 0, 0⟩

/-- The second point built from `[goodArc]`. -/
def globePoint1 : RenderPoint := ⟨1, 1, fun t => ⟨255, 0, 0, 1 - t⟩, 1, 1⟩

/-- A caller configuration setting every numeric option to `7`. -/
def sevenConfig : GlobeConfig :=
  { pointSize := some 7, atmosphereAltitude := some 7, emissiveIntensity := some 7,
    shininess := some 7, arcTime := some 7, arcLength := some 7, rings := some 7,
    maxRings := some 7 }

/-! ## Lemmas about `hexToRgb` -/

theorem hex_ne_hash {c : Char} (h : isHexDigit c = true) : c ≠ '#' := by
  intro he
  subst he
  exact absurd h (by decide)

theorem stripHash_hash (l : List Char) : stripHash ('#' :: l) = l := by
  simp [stripHash]

theorem stripHash_cons_ne {c : Char} (l : List Char) (h : c ≠ '#') :
    stripHash (c :: l) = c :: l := by
  simp [stripHash, h]

theorem hex6_parse (s : String) (c1 c2 c3 c4 c5 c6 : Char)
    (hor : s.data = [c1, c2, c3, c4, c5, c6] ∨ s.data = '#' :: [c1, c2, c3, c4, c5, c6])
    (h1 : isHexDigit c1 = true) (h2 : isHexDigit c2 = true) (h3 : isHexDigit c3 = true)
    (h4 : isHexDigit c4 = true) (h5 : isHexDigit c5 = true) (h6 : isHexDigit c6 = true) :
    hexToRgb s = some ⟨hexVal c1 * 16 + hexVal c2, hexVal c3 * 16 + hexVal c4,
      hexVal c5 * 16 + hexVal c6⟩ := by
  have hs : stripHash s.data = [c1, c2, c3, c4, c5, c6] := by
    rcases hor with h | h
    · rw [h]
      exact stripHash_cons_ne _ (hex_ne_hash h1)
    · rw [h]
      exact stripHash_hash _
  have he : expandShorthand s = s := by
    unfold expandShorthand
    rw [hs]
  unfold hexToRgb
  rw [he]
  unfold parse6
  rw [hs]
  simp [h1, h2, h3, h4, h5, h6]

theorem hex3_parse (s : String) (c1 c2 c3 : Char)
    (hor : s.data = [c1, c2, c3] ∨ s.data = '#' :: [c1, c2, c3])
    (h1 : isHexDigit c1 = true) (h2 : isHexDigit c2 = true) (h3 : isHexDigit c3 = true) :
    hexToRgb s = some ⟨hexVal c1 * 17, hexVal c2 * 17, hexVal c3 * 17⟩ := by
  have hs : stripHash s.data = [c1, c2, c3] := by
    rcases hor with h | h
    · rw [h]
      exact stripHash_cons_ne _ (hex_ne_hash h1)
    · rw [h]
      exact stripHash_hash _
  have he : expandShorthand s = String.mk [c1, c1, c2, c2, c3, c3] := by
    unfold expandShorthand
    rw [hs]
    simp [h1, h2, h3]
  unfold hexToRgb
  rw [he]
  unfold parse6
  have hd : (String.mk [c1, c1, c2, c2, c3, c3]).data = [c1, c1, c2, c2, c3, c3] := rfl
  rw [hd, stripHash_cons_ne _ (hex_ne_hash h1)]
  simp [h1, h2, h3]
  constructor
  · omega
  constructor
  · omega
  · omega

theorem nonhex_none (s : String) (hne : ¬ specHexColor s = true) : hexToRgb s = none := by
  unfold hexToRgb expandShorthand
  split
  case h_1 a b c heq =>
    by_cases hh : isHexDigit a && isHexDigit b && isHexDigit c
    · exact absurd (by unfold specHexColor; rw [heq]; exact hh) hne
    · rw [if_neg hh]
      unfold parse6
      rw [heq]
  case h_2 hne3 =>
    unfold parse6
    split
    case h_1 a b c d e f heq =>
      by_cases hh : isHexDigit a && isHexDigit b && isHexDigit c && isHexDigit d
          && isHexDigit e && isHexDigit f
      · exact absurd (by unfold specHexColor; rw [heq]; exact hh) hne
      · rw [if_neg hh]
    case h_2 => rfl

/-- C3: for every input string: a valid 6-digit hex color (optional `#`,
case-insensitive) decodes to exactly the byte triple obtained by parsing its
three 2-digit pairs; a 3-digit shorthand is expanded by digit-doubling and
parsed the same way (each byte is `17 ×` the digit value); a string matching
neither pattern decodes to `null`. -/
theorem c3_hexToRgb_correct (s : String) (c1 c2 c3 c4 c5 c6 : Char) :
    ((s.data = [c1, c2, c3, c4, c5, c6] ∨ s.data = '#' :: [c1, c2, c3, c4, c5, c6]) →
      isHexDigit c1 = true → isHexDigit c2 = true → isHexDigit c3 = true →
      isHexDigit c4 = true → isHexDigit c5 = true → isHexDigit c6 = true →
      hexToRgb s = some ⟨hexVal c1 * 16 + hexVal c2, hexVal c3 * 16 + hexVal c4,
        hexVal c5 * 16 + hexVal c6⟩)
    ∧ ((s.data = [c1, c2, c3] ∨ s.data = '#' :: [c1, c2, c3]) →
      isHexDigit c1 = true → isHexDigit c2 = true → isHexDigit c3 = true →
      hexToRgb s = some ⟨hexVal c1 * 17, hexVal c2 * 17, hexVal c3 * 17⟩)
    ∧ (¬ specHexColor s = true → hexToRgb s = none) := by
  refine ⟨?_, ?_, nonhex_none s⟩
  · intro hor h1 h2 h3 h4 h5 h6
    exact hex6_parse s c1 c2 c3 c4 c5 c6 hor h1 h2 h3 h4 h5 h6
  · intro hor h1 h2 h3
    exact hex3_parse s c1 c2 c3 hor h1 h2 h3

/-- Witness for C3 at concrete inputs. -/
theorem c3_hexToRgb_correct_witness :
    hexToRgb "#ff0000" = some ⟨255, 0, 0⟩ ∧ hexToRgb "0f0" = some ⟨0, 255, 0⟩
      ∧ hexToRgb "blue" = none := by
  refine ⟨?_, ?_, ?_⟩
  · exact (c3_hexToRgb_correct "#ff0000" 'f' 'f' '0' '0' '0' '0').1
      (Or.inr (by decide)) (by decide) (by decide) (by decide) (by decide) (by decide)
      (by decide)
  · exact (c3_hexToRgb_correct "0f0" '0' 'f' '0' '0' '0' '0').2.1
      (Or.inl (by decide)) (by decide) (by decide) (by decide)
  · exact (c3_hexToRgb_correct "blue" 'a' 'a' 'a' 'a' 'a' 'a').2.2 (by decide)

/-! ## Lemmas about the dedup filter of `_buildData` -/

theorem latLngEq_iff (a b : RenderPoint) :
    latLngEq a b = true ↔ (a.lat = b.lat ∧ a.lng = b.lng) := by
  simp [latLngEq]

theorem latLngEq_self (a : RenderPoint) : latLngEq a a = true := by
  simp [latLngEq]

theorem findIdx_latLngEq_congr {v w : RenderPoint} (hlat : v.lat = w.lat)
    (hlng : v.lng = w.lng) (l : List RenderPoint) :
    l.findIdx (fun u => latLngEq u v) = l.findIdx (fun u => latLngEq u w) := by
  induction l with
  | nil => rfl
  | cons a t ih =>
    rw [List.findIdx_cons, List.findIdx_cons, ih]
    have hab : latLngEq a v = latLngEq a w := by
      simp [latLngEq, hlat, hlng]
    rw [hab]

theorem map_snd_enum (l : List RenderPoint) : l.enum.map Prod.snd = l := by
  rw [List.enum_eq_enumFrom, List.enumFrom_map_snd]

theorem filteredPoints_sublist (pts : List RenderPoint) :
    List.Sublist (filteredPoints pts) pts := by
  conv_rhs => rw [← map_snd_enum pts]
  exact List.Sublist.map Prod.snd (List.filter_sublist pts.enum)

theorem filteredPoints_pairwise (pts : List RenderPoint) :
    (filteredPoints pts).Pairwise fun a b => ¬(a.lat = b.lat ∧ a.lng = b.lng) := by
  unfold filteredPoints
  rw [List.pairwise_map]
  have hfst : pts.enum.Pairwise fun x y : Nat × RenderPoint => x.1 ≠ y.1 := by
    have hnd : (pts.enum.map Prod.fst).Nodup := List.nodup_enum_map_fst pts
    exact List.pairwise_map.mp hnd
  have hfil : (pts.enum.filter fun iv =>
      pts.findIdx (fun v2 => latLngEq v2 iv.2) == iv.1).Pairwise
        fun x y : Nat × RenderPoint => x.1 ≠ y.1 :=
    hfst.sublist (List.filter_sublist _)
  refine hfil.imp_of_mem ?_
  intro x y hx hy hne hkeys
  have px : pts.findIdx (fun v2 => latLngEq v2 x.2) = x.1 := by
    have := (List.mem_filter.1 hx).2
    simpa using this
  have py : pts.findIdx (fun v2 => latLngEq v2 y.2) = y.1 := by
    have := (List.mem_filter.1 hy).2
    simpa using this
  have hcongr := findIdx_latLngEq_congr hkeys.1 hkeys.2 pts
  exact hne (px ▸ py ▸ hcongr)

theorem first_occurrence_kept (pts : List RenderPoint) (v : RenderPoint) (hv : v ∈ pts) :
    ∃ i, ∃ hi : i < pts.length,
      pts.findIdx (fun u => latLngEq u v) = i ∧
      pts.get ⟨i, hi⟩ ∈ filteredPoints pts ∧
      (pts.get ⟨i, hi⟩).lat = v.lat ∧ (pts.get ⟨i, hi⟩).lng = v.lng := by
  have hex : ∃ x ∈ pts, (fun u => latLngEq u v) x = true := ⟨v, hv, latLngEq_self v⟩
  have hi : pts.findIdx (fun u => latLngEq u v) < pts.length :=
    List.findIdx_lt_length_of_exists hex
  refine ⟨pts.findIdx (fun u => latLngEq u v), hi, rfl, ?_, ?_⟩
  · set i := pts.findIdx (fun u => latLngEq u v) with hidef
    set w := pts.get ⟨i, hi⟩ with hwdef
    have hpw : latLngEq w v = true := by
      have h := @List.findIdx_getElem _ (fun u => latLngEq u v) pts hi
      simpa [hwdef, List.get_eq_getElem] using h
    have hkey := (latLngEq_iff w v).1 hpw
    have hfw : pts.findIdx (fun u => latLngEq u w) = i := by
      rw [findIdx_latLngEq_congr hkey.1 hkey.2 pts]
    have hmem : (i, w) ∈ pts.enum := by
      rw [List.mem_enum_iff_getElem?]
      simp [hwdef, List.getElem?_eq_getElem hi]
    have hfil : (i, w) ∈ pts.enum.filter fun iv =>
        pts.findIdx (fun v2 => latLngEq v2 iv.2) == iv.1 :=
      List.mem_filter.2 ⟨hmem, by simpa using hfw⟩
    unfold filteredPoints
    exact List.mem_map_of_mem Prod.snd hfil
  · have hpw : latLngEq (pts.get ⟨pts.findIdx (fun u => latLngEq u v), hi⟩) v = true := by
      have h := @List.findIdx_getElem _ (fun u => latLngEq u v) pts hi
      simpa [List.get_eq_getElem] using h
    exact (latLngEq_iff _ v).1 hpw

theorem findIdx_eq_self_of_nodup_keys :
    ∀ (pts : List RenderPoint), (pts.map fun p => (p.lat, p.lng)).Nodup →
    ∀ i, ∀ hi : i < pts.length,
      pts.findIdx (fun u => latLngEq u (pts.get ⟨i, hi⟩)) = i := by
  intro pts
  induction pts with
  | nil =>
    intro _ i hi
    exact absurd hi (by simp)
  | cons hd tl ih =>
    intro hnd i hi
    rw [List.map_cons, List.nodup_cons] at hnd
    match i with
    | 0 =>
      rw [List.findIdx_cons]
      simp [latLngEq_self]
    | i + 1 =>
      have hi' : i < tl.length := by simpa using hi
      have hv : tl.get ⟨i, hi'⟩ ∈ tl := List.get_mem tl i hi'
      have hne : latLngEq hd (tl.get ⟨i, hi'⟩) = false := by
        by_contra hcon
        rw [Bool.not_eq_false] at hcon
        have hk := (latLngEq_iff _ _).1 hcon
        have : (hd.lat, hd.lng) ∈ tl.map fun p => (p.lat, p.lng) := by
          rw [List.mem_map]
          exact ⟨tl.get ⟨i, hi'⟩, hv, by rw [hk.1, hk.2]⟩
        exact hnd.1 this
      have hget : (hd :: tl).get ⟨i + 1, hi⟩ = tl.get ⟨i, hi'⟩ := rfl
      rw [hget, List.findIdx_cons, hne]
      simp only [cond_false]
      rw [ih hnd.2 i hi']

theorem filteredPoints_of_nodup_keys (pts : List RenderPoint)
    (h : (pts.map fun p => (p.lat, p.lng)).Nodup) : filteredPoints pts = pts := by
  unfold filteredPoints
  have hall : ∀ iv ∈ pts.enum,
      (pts.findIdx (fun v2 => latLngEq v2 iv.2) == iv.1) = true := by
    rw [List.forall_mem_enum]
    intro i hi
    simp only [beq_iff_eq]
    have := findIdx_eq_self_of_nodup_keys pts h i hi
    simpa [List.get_eq_getElem] using this
  rw [List.filter_eq_self.mpr hall, map_snd_enum]

/-! ## Lemmas about the emission loop of `_buildData` -/

theorem buildPoints_provenance (ps : ℚ) (arcs : List Position) :
    ∀ p ∈ buildPoints ps arcs, ∃ a, a ∈ arcs ∧ ∃ c, hexToRgb a.color = some c ∧
      p.size = ps ∧ p.order = a.order ∧
      p.color = (fun t => ⟨c.r, c.g, c.b, 1 - t⟩) ∧
      ((p.lat = a.startLat ∧ p.lng = a.startLng) ∨ (p.lat = a.endLat ∧ p.lng = a.endLng)) := by
  induction arcs with
  | nil =>
    intro p hp
    exact absurd hp (by simp [buildPoints])
  | cons a t ih =>
    intro p hp
    rw [buildPoints, List.mem_append] at hp
    rcases hp with hp | hp
    · cases hc : hexToRgb a.color with
      | none => rw [hc] at hp; exact absurd hp (by simp)
      | some c =>
        rw [hc] at hp
        rcases List.mem_cons.1 hp with heq | hp2
        · subst heq
          exact ⟨a, List.mem_cons_self a t, c, hc, rfl, rfl, rfl, Or.inl ⟨rfl, rfl⟩⟩
        · rcases List.mem_cons.1 hp2 with heq | hp3
          · subst heq
            exact ⟨a, List.mem_cons_self a t, c, hc, rfl, rfl, rfl, Or.inr ⟨rfl, rfl⟩⟩
          · exact absurd hp3 (by simp)
    · obtain ⟨b, hb, hrest⟩ := ih p hp
      exact ⟨b, List.mem_cons_of_mem a hb, hrest⟩

theorem buildPoints_filter_decodable (ps : ℚ) (arcs : List Position) :
    buildPoints ps (arcs.filter fun a => (hexToRgb a.color).isSome) = buildPoints ps arcs := by
  induction arcs with
  | nil => rfl
  | cons a t ih =>
    cases hc : hexToRgb a.color with
    | none =>
      rw [List.filter_cons_of_neg (by simp [hc])]
      rw [ih, buildPoints, hc]
      simp
    | some c =>
      rw [List.filter_cons_of_pos (by simp [hc])]
      rw [buildPoints, buildPoints, ih]

theorem exists_emitted_endpoints (ps : ℚ) (arcs : List Position) (a : Position)
    (ha : a ∈ arcs) (c : Rgb) (hc : hexToRgb a.color = some c) :
    (∃ v ∈ buildPoints ps arcs, v.lat = a.startLat ∧ v.lng = a.startLng) ∧
    (∃ v ∈ buildPoints ps arcs, v.lat = a.endLat ∧ v.lng = a.endLng) := by
  induction arcs with
  | nil => exact absurd ha (by simp)
  | cons hd t ih =>
    rcases List.mem_cons.1 ha with heq | hmem
    · subst heq
      rw [buildPoints, hc]
      constructor
      · refine ⟨_, List.mem_append_left _ (List.mem_cons_self _ _), rfl, rfl⟩
      · refine ⟨_, List.mem_append_left _
          (List.mem_cons_of_mem _ (List.mem_cons_self _ _)), rfl, rfl⟩
    · obtain ⟨⟨v1, hv1, hc1⟩, ⟨v2, hv2, hc2⟩⟩ := ih hmem
      rw [buildPoints]
      exact ⟨⟨v1, List.mem_append_right _ hv1, hc1⟩, ⟨v2, List.mem_append_right _ hv2, hc2⟩⟩

theorem buildPoints_length_all_decodable (ps : ℚ) (arcs : List Position)
    (h : ∀ a ∈ arcs, (hexToRgb a.color).isSome) :
    (buildPoints ps arcs).length = 2 * arcs.length := by
  induction arcs with
  | nil => rfl
  | cons a t ih =>
    have ha := h a (List.mem_cons_self a t)
    cases hc : hexToRgb a.color with
    | none => rw [hc] at ha; exact absurd ha (by simp)
    | some c =>
      rw [buildPoints, hc, List.length_append]
      have := ih fun b hb => h b (List.mem_cons_of_mem a hb)
      simp only [List.length_cons, List.length_nil] at *
      omega

theorem buildPoints_keys_all_decodable (ps : ℚ) (arcs : List Position)
    (h : ∀ a ∈ arcs, (hexToRgb a.color).isSome) :
    (buildPoints ps arcs).map (fun p => (p.lat, p.lng)) = endpointPairs arcs := by
  induction arcs with
  | nil => rfl
  | cons a t ih =>
    have ha := h a (List.mem_cons_self a t)
    cases hc : hexToRgb a.color with
    | none => rw [hc] at ha; exact absurd ha (by simp)
    | some c =>
      rw [buildPoints, hc, List.map_append, endpointPairs,
        ih fun b hb => h b (List.mem_cons_of_mem a hb)]
      rfl

/-! ## Claims about the builder -/

/-- C1 (amended): for every arc list, the built point dataset is a
subsequence of the emission list (relative order preserved), holds at most
one point per distinct `(lat, lng)` pair, and for every emitted point the
point at the first emission index sharing its `(lat, lng)` is kept; for `n`
arcs whose colors all decode and whose endpoints are pairwise distinct the
output has exactly `2n` entries. -/
theorem c1_builder_dedup (props : MergedProps) (arcs : List Position) :
    List.Sublist (buildData props arcs) (buildPoints props.pointSize arcs)
    ∧ (buildData props arcs).Pairwise (fun a b => ¬(a.lat = b.lat ∧ a.lng = b.lng))
    ∧ (∀ v ∈ buildPoints props.pointSize arcs,
        ∃ i, ∃ hi : i < (buildPoints props.pointSize arcs).length,
          (buildPoints props.pointSize arcs).findIdx (fun u => latLngEq u v) = i ∧
          (buildPoints props.pointSize arcs).get ⟨i, hi⟩ ∈ buildData props arcs ∧
          ((buildPoints props.pointSize arcs).get ⟨i, hi⟩).lat = v.lat ∧
          ((buildPoints props.pointSize arcs).get ⟨i, hi⟩).lng = v.lng)
    ∧ ((∀ a ∈ arcs, (hexToRgb a.color).isSome) → (endpointPairs arcs).Nodup →
        (buildData props arcs).length = 2 * arcs.length) := by
  refine ⟨filteredPoints_sublist _, filteredPoints_pairwise _,
    fun v hv => first_occurrence_kept _ v hv, fun hdec hnd => ?_⟩
  have hkeys := buildPoints_keys_all_decodable props.pointSize arcs hdec
  have hnd' : ((buildPoints props.pointSize arcs).map fun p => (p.lat, p.lng)).Nodup := by
    rw [hkeys]; exact hnd
  unfold buildData
  rw [filteredPoints_of_nodup_keys _ hnd']
  exact buildPoints_length_all_decodable props.pointSize arcs hdec

/-- Witness for C1 at a concrete two-arc input with decodable colors and
pairwise-distinct endpoints. -/
theorem c1_builder_dedup_witness :
    (∀ a ∈ [goodArc, goodArc2], (hexToRgb a.color).isSome)
    ∧ (endpointPairs [goodArc, goodArc2]).Nodup
    ∧ (buildData defaultCfg [goodArc, goodArc2]).length = 2 * [goodArc, goodArc2].length := by
  refine ⟨by decide, by decide, ?_⟩
  exact (c1_builder_dedup defaultCfg [goodArc, goodArc2]).2.2.2 (by decide) (by decide)

/-- Counterexample to C1 as stated: one arc with pairwise-distinct endpoints
but an undecodable color yields 0 points, not `2 × 1`. -/
theorem c1_counterexample :
    (endpointPairs [badArc]).Nodup
    ∧ (buildData defaultCfg [badArc]).length = 0
    ∧ (0 : Nat) ≠ 2 * [badArc].length := by
  exact ⟨by decide, rfl, by decide⟩

/-- C5: arcs whose color fails to decode contribute nothing to the built
point dataset (removing them changes nothing, and every built point's
coordinates come from a decodable arc), while both endpoints of every
decodable arc are still represented in the dataset. -/
theorem c5_skip_undecodable (props : MergedProps) (arcs : List Position) :
    buildData props arcs = buildData props (arcs.filter fun a => (hexToRgb a.color).isSome)
    ∧ (∀ p ∈ buildData props arcs, ∃ b, b ∈ arcs ∧ (hexToRgb b.color).isSome ∧
        ((p.lat = b.startLat ∧ p.lng = b.startLng) ∨ (p.lat = b.endLat ∧ p.lng = b.endLng)))
    ∧ (∀ a ∈ arcs, ∀ c, hexToRgb a.color = some c →
        (∃ p ∈ buildData props arcs, p.lat = a.startLat ∧ p.lng = a.startLng) ∧
        (∃ p ∈ buildData props arcs, p.lat = a.endLat ∧ p.lng = a.endLng)) := by
  refine ⟨?_, ?_, ?_⟩
  · unfold buildData
    rw [buildPoints_filter_decodable]
  · intro p hp
    have hp' := (filteredPoints_sublist (buildPoints props.pointSize arcs)).subset hp
    obtain ⟨b, hb, c, hc, _, _, _, hcoords⟩ := buildPoints_provenance props.pointSize arcs p hp'
    exact ⟨b, hb, by rw [hc]; rfl, hcoords⟩
  · intro a ha c hc
    obtain ⟨⟨v1, hv1, hl1, hg1⟩, ⟨v2, hv2, hl2, hg2⟩⟩ :=
      exists_emitted_endpoints props.pointSize arcs a ha c hc
    constructor
    · obtain ⟨i, hi, _, hmem, hlat, hlng⟩ :=
        first_occurrence_kept (buildPoints props.pointSize arcs) v1 hv1
      exact ⟨_, hmem, by rw [hlat, hl1], by rw [hlng, hg1]⟩
    · obtain ⟨i, hi, _, hmem, hlat, hlng⟩ :=
        first_occurrence_kept (buildPoints props.pointSize arcs) v2 hv2
      exact ⟨_, hmem, by rw [hlat, hl2], by rw [hlng, hg2]⟩

/-- Witness for C5 at a concrete input mixing an undecodable and a
decodable arc. -/
theorem c5_skip_undecodable_witness :
    hexToRgb badArc.color = none
    ∧ buildData defaultCfg [badArc, goodArc2]
        = buildData defaultCfg ([badArc, goodArc2].filter fun a => (hexToRgb a.color).isSome)
    ∧ ((∃ p ∈ buildData defaultCfg [badArc, goodArc2],
          p.lat = goodArc2.startLat ∧ p.lng = goodArc2.startLng) ∧
       (∃ p ∈ buildData defaultCfg [badArc, goodArc2],
          p.lat = goodArc2.endLat ∧ p.lng = goodArc2.endLng)) := by
  refine ⟨rfl, (c5_skip_undecodable defaultCfg [badArc, goodArc2]).1, ?_⟩
  exact (c5_skip_undecodable defaultCfg [badArc, goodArc2]).2.2 goodArc2 (by decide)
    ⟨0, 255, 0⟩ rfl

/-- C8: every point built by `_buildData` carries the color closure of its
originating arc: at parameter `t` it yields the arc's decoded byte triple
with alpha `1 - t`; in particular alpha `1` at `t = 0` and alpha `0` at
`t = 1`. -/
theorem c8_point_color_fade (props : MergedProps) (arcs : List Position) :
    ∀ p ∈ buildData props arcs, ∃ a, a ∈ arcs ∧ ∃ c, hexToRgb a.color = some c ∧
      (∀ t, p.color t = ⟨c.r, c.g, c.b, 1 - t⟩) ∧
      p.color 0 = ⟨c.r, c.g, c.b, 1⟩ ∧ p.color 1 = ⟨c.r, c.g, c.b, 0⟩ := by
  intro p hp
  have hp' := (filteredPoints_sublist (buildPoints props.pointSize arcs)).subset hp
  obtain ⟨a, ha, c, hc, _, _, hcol, _⟩ := buildPoints_provenance props.pointSize arcs p hp'
  refine ⟨a, ha, c, hc, fun t => by rw [hcol], ?_, ?_⟩
  · rw [hcol]
    norm_num
  · rw [hcol]
    norm_num

/-- Witness for C8 at the two points built from `[goodArc]`. -/
theorem c8_point_color_fade_witness :
    (globePoint0.color 0).a = 1 ∧ (globePoint1.color 1).a = 0 := by
  have hbd : buildData defaultCfg [goodArc] = [globePoint0, globePoint1] := rfl
  constructor
  · obtain ⟨a, _, c, _, _, h0, _⟩ := c8_point_color_fade defaultCfg [goodArc] globePoint0
      (by rw [hbd]; exact List.mem_cons_self _ _)
    rw [h0]
  · obtain ⟨a, _, c, _, _, _, h1⟩ := c8_point_color_fade defaultCfg [goodArc] globePoint1
      (by rw [hbd]; exact List.mem_cons_of_mem _ (List.mem_cons_self _ _))
    rw [h1]

/-! ## Lemmas about `genRandomNumbers` and the ring tick -/

theorem genRandomAux_done (stream : Nat → Nat) (mn mx count i : Nat) (arr : List Nat)
    (h : ¬ arr.length < count) :
    ∀ fuel, genRandomAux stream mn mx count fuel i arr = some arr := by
  intro fuel
  cases fuel <;> simp [genRandomAux, h]

theorem genRandomAux_succ (stream : Nat → Nat) (mn mx count fuel i : Nat) (arr : List Nat)
    (h : arr.length < count) :
    genRandomAux stream mn mx count (fuel + 1) i arr =
      (if arr.contains (mn + (if mx - mn = 0 then 0 else stream i % (mx - mn)))
       then genRandomAux stream mn mx count fuel (i + 1) arr
       else genRandomAux stream mn mx count fuel (i + 1)
         (arr ++ [mn + (if mx - mn = 0 then 0 else stream i % (mx - mn))])) := by
  rw [genRandomAux]
  simp [h]

theorem genRandomAux_invariant (stream : Nat → Nat) (n count : Nat) (hcn : count ≤ n) :
    ∀ fuel i arr res, genRandomAux stream 0 n count fuel i arr = some res →
      arr.Nodup → (∀ x ∈ arr, x < n) → arr.length ≤ count →
      res.length = count ∧ res.Nodup ∧ ∀ x ∈ res, x < n := by
  intro fuel
  induction fuel with
  | zero =>
    intro i arr res hres hnd hbd hle
    by_cases h : arr.length < count
    · rw [genRandomAux] at hres
      simp [h] at hres
    · rw [genRandomAux_done stream 0 n count i arr h 0] at hres
      obtain rfl := Option.some.inj hres
      exact ⟨by omega, hnd, hbd⟩
  | succ fuel ih =>
    intro i arr res hres hnd hbd hle
    by_cases h : arr.length < count
    · have hn : 0 < n := by omega
      have hd : n - 0 ≠ 0 := by omega
      rw [genRandomAux_succ stream 0 n count fuel i arr h] at hres
      rw [if_neg hd] at hres
      set r := 0 + stream i % (n - 0) with hrdef
      have hrn : r < n := by
        have := Nat.mod_lt (stream i) (by omega : 0 < n - 0)
        omega
      by_cases hc : arr.contains r
      · rw [if_pos hc] at hres
        exact ih (i + 1) arr res hres hnd hbd hle
      · rw [if_neg hc] at hres
        have hnotmem : r ∉ arr := by
          intro hmem
          exact hc (List.elem_eq_true_of_mem hmem)
        refine ih (i + 1) (arr ++ [r]) res hres ?_ ?_ ?_
        · simp [List.nodup_append, hnd, hnotmem]
        · intro x hx
          rcases List.mem_append.1 hx with hx | hx
          · exact hbd x hx
          · simp at hx
            omega
        · simp
          omega
    · rw [genRandomAux_done stream 0 n count i arr h] at hres
      obtain rfl := Option.some.inj hres
      exact ⟨by omega, hnd, hbd⟩

/-- C2: a ring tick over `n` arcs asks for `count = floor(n × 4 / 5)`
indices, and whenever the draw loop finishes it returns exactly `count`
pairwise-distinct indices, each in `[0, n)`. -/
theorem c2_ring_tick_selection (data : List Position) (stream : Nat → Nat)
    (fuel : Nat) (idxs : List Nat)
    (h : genRandomNumbers stream 0 data.length (data.length * 4 / 5) fuel = some idxs) :
    idxs.length = data.length * 4 / 5 ∧ idxs.Nodup ∧ ∀ i ∈ idxs, i < data.length := by
  have hcn : data.length * 4 / 5 ≤ data.length :=
    Nat.div_le_of_le_mul (by omega)
  exact genRandomAux_invariant stream data.length (data.length * 4 / 5) hcn fuel 0 [] idxs h
    (by simp) (by simp) (by simp)

/-- Witness for C2: ten arcs, a concrete stream, a successful draw of
exactly 8 distinct indices below 10. -/
theorem c2_ring_tick_selection_witness :
    genRandomNumbers (fun i => i) 0 tenArcs.length (tenArcs.length * 4 / 5) 10
      = some [0, 1, 2, 3, 4, 5, 6, 7]
    ∧ ([0, 1, 2, 3, 4, 5, 6, 7] : List Nat).length = tenArcs.length * 4 / 5
    ∧ ([0, 1, 2, 3, 4, 5, 6, 7] : List Nat).Nodup
    ∧ ∀ i ∈ ([0, 1, 2, 3, 4, 5, 6, 7] : List Nat), i < tenArcs.length := by
  refine ⟨rfl, ?_⟩
  have h := c2_ring_tick_selection tenArcs (fun i => i) 10 [0, 1, 2, 3, 4, 5, 6, 7] rfl
  exact h

/-- C4 (amended): on every completed ring tick, each drawn index is below
the arc list's length (not necessarily below the point list's length), and
the ring dataset is replaced wholesale with exactly the points whose
position in the point list is among the drawn indices. -/
theorem c4_ring_dataset (stream : Nat → Nat) (fuel : Nat) (data : List Position)
    (pts rings : List RenderPoint) (h : ringTick stream fuel data pts = some rings) :
    ∃ idxs, genRandomNumbers stream 0 data.length (data.length * 4 / 5) fuel = some idxs
      ∧ (∀ i ∈ idxs, i < data.length)
      ∧ rings = (pts.enum.filter fun iv => idxs.contains iv.1).map Prod.snd := by
  unfold ringTick at h
  by_cases hlen : data.length = 0
  · rw [if_pos hlen] at h
    exact absurd h (by simp)
  · rw [if_neg hlen] at h
    cases hgen : genRandomNumbers stream 0 data.length (data.length * 4 / 5) fuel with
    | none => rw [hgen] at h; exact absurd h (by simp)
    | some idxs =>
      rw [hgen] at h
      refine ⟨idxs, rfl, ?_, (Option.some.inj h).symm⟩
      have hcn : data.length * 4 / 5 ≤ data.length := Nat.div_le_of_le_mul (by omega)
      exact (genRandomAux_invariant stream data.length (data.length * 4 / 5) hcn fuel 0 []
        idxs hgen (by simp) (by simp) (by simp)).2.2

/-- Witness for C4 at a concrete tick that succeeds. -/
theorem c4_ring_dataset_witness :
    ∃ idxs, genRandomNumbers (fun _ => 0) 0 ([coincidentArc, coincidentArc] : List Position).length
        (([coincidentArc, coincidentArc] : List Position).length * 4 / 5) 4 = some idxs
      ∧ (∀ i ∈ idxs, i < ([coincidentArc, coincidentArc] : List Position).length)
      ∧ buildData defaultCfg [coincidentArc, coincidentArc]
          = ((buildData defaultCfg [coincidentArc, coincidentArc]).enum.filter
              fun iv => idxs.contains iv.1).map Prod.snd :=
  c4_ring_dataset (fun _ => 0) 4 [coincidentArc, coincidentArc]
    (buildData defaultCfg [coincidentArc, coincidentArc])
    (buildData defaultCfg [coincidentArc, coincidentArc]) rfl

/-- Counterexample to C4 as stated: two arcs sharing one coincident
endpoint produce a single point, yet the tick draws index 1, which is not a
valid position in the point list (the filter then simply selects nothing). -/
theorem c4_counterexample :
    (buildData defaultCfg [coincidentArc, coincidentArc]).length = 1
    ∧ genRandomNumbers (fun _ => 1) 0 ([coincidentArc, coincidentArc] : List Position).length
        (([coincidentArc, coincidentArc] : List Position).length * 4 / 5) 4 = some [1]
    ∧ ¬(1 < (buildData defaultCfg [coincidentArc, coincidentArc]).length)
    ∧ ringTick (fun _ => 1) 4 [coincidentArc, coincidentArc]
        (buildData defaultCfg [coincidentArc, coincidentArc]) = some [] := by
  exact ⟨rfl, rfl, by decide, rfl⟩

/-- C10: with an empty arc list all derived collections are empty: the
built point dataset is empty, the index draw returns zero indices without
any failure, and the ring interval effect is a no-op. -/
theorem c10_empty_data (props : MergedProps) (stream : Nat → Nat) (fuel : Nat)
    (pts : List RenderPoint) :
    buildData props [] = []
    ∧ genRandomNumbers stream 0 ([] : List Position).length
        (([] : List Position).length * 4 / 5) fuel = some []
    ∧ ringTick stream fuel [] pts = none := by
  refine ⟨rfl, ?_, rfl⟩
  exact genRandomAux_done stream 0 0 0 0 [] (by simp) fuel

theorem genRandomAux_terminates (stream : Nat → Nat) (n count : Nat) (hcnt : count ≤ n)
    (hcov : ∀ v, v < n → ∀ j, ∃ m, stream (j + m) % n = v) :
    ∀ k arr j, arr.Nodup → (∀ x ∈ arr, x < n) → count ≤ arr.length + k →
      ∃ fuel res, genRandomAux stream 0 n count fuel j arr = some res := by
  intro k
  induction k with
  | zero =>
    intro arr j hnd hbd hle
    exact ⟨0, arr, genRandomAux_done stream 0 n count j arr (by omega) 0⟩
  | succ k ih =>
    intro arr j hnd hbd hle
    by_cases hlt : arr.length < count
    · have hn : 0 < n := by omega
      have hfresh : ∃ v, v < n ∧ v ∉ arr := by
        by_contra hcon
        push_neg at hcon
        have hsub : List.range n ⊆ arr := fun v hv => hcon v (List.mem_range.mp hv)
        have hlen := (List.subperm_of_subset (List.nodup_range n) hsub).length_le
        rw [List.length_range] at hlen
        omega
      obtain ⟨v, hvn, hvarr⟩ := hfresh
      have inner : ∀ m j2, stream (j2 + m) % n = v →
          ∃ fuel res, genRandomAux stream 0 n count fuel j2 arr = some res := by
        intro m
        induction m with
        | zero =>
          intro j2 hj
          have hr : (0 + (if n - 0 = 0 then 0 else stream j2 % (n - 0))) = v := by
            rw [if_neg (by omega : ¬ n - 0 = 0)]
            simpa using hj
          have hcont : ¬ (arr.contains v = true) :=
            fun hcc => hvarr (List.mem_of_elem_eq_true hcc)
          obtain ⟨fuel, res, hres⟩ := ih (arr ++ [v]) (j2 + 1)
            (by simp [List.nodup_append, hnd, hvarr])
            (by
              intro x hx
              rcases List.mem_append.1 hx with hx | hx
              · exact hbd x hx
              · simp at hx
                omega)
            (by simp; omega)
          refine ⟨fuel + 1, res, ?_⟩
          rw [genRandomAux_succ stream 0 n count fuel j2 arr hlt, hr, if_neg hcont]
          exact hres
        | succ m ihm =>
          intro j2 hj
          set r := 0 + (if n - 0 = 0 then 0 else stream j2 % (n - 0)) with hrdef
          by_cases hc : arr.contains r = true
          · obtain ⟨fuel, res, hres⟩ := ihm (j2 + 1)
              (by rw [show j2 + 1 + m = j2 + (m + 1) from by omega]; exact hj)
            refine ⟨fuel + 1, res, ?_⟩
            rw [genRandomAux_succ stream 0 n count fuel j2 arr hlt, ← hrdef, if_pos hc]
            exact hres
          · have hrn : r < n := by
              rw [hrdef, if_neg (by omega : ¬ n - 0 = 0)]
              have := Nat.mod_lt (stream j2) (show 0 < n - 0 by omega)
              omega
            have hnm : r ∉ arr := fun hmem => hc (List.elem_eq_true_of_mem hmem)
            obtain ⟨fuel, res, hres⟩ := ih (arr ++ [r]) (j2 + 1)
              (by simp [List.nodup_append, hnd, hnm])
              (by
                intro x hx
                rcases List.mem_append.1 hx with hx | hx
                · exact hbd x hx
                · simp at hx
                  omega)
              (by simp; omega)
            refine ⟨fuel + 1, res, ?_⟩
            rw [genRandomAux_succ stream 0 n count fuel j2 arr hlt, ← hrdef, if_neg hc]
            exact hres
      obtain ⟨m, hm⟩ := hcov v hvn j
      exact inner m j hm
    · exact ⟨0, arr, genRandomAux_done stream 0 n count j arr hlt 0⟩

/-- C6: the reject-and-retry selection terminates on every ring-tick
invocation: the requested count `floor(n × 4 / 5)` never exceeds the number
`n` of arcs, so for any randomness stream that keeps covering `[0, n)` the
loop finishes within some finite number of iterations. -/
theorem c6_genRandomNumbers_terminates (n : Nat) (stream : Nat → Nat)
    (hcov : ∀ v, v < n → ∀ j, ∃ m, stream (j + m) % n = v) :
    n * 4 / 5 ≤ n
    ∧ ∃ fuel res, genRandomNumbers stream 0 n (n * 4 / 5) fuel = some res := by
  have hcnt : n * 4 / 5 ≤ n := Nat.div_le_of_le_mul (by omega)
  refine ⟨hcnt, ?_⟩
  obtain ⟨fuel, res, h⟩ := genRandomAux_terminates stream n (n * 4 / 5) hcnt hcov
    (n * 4 / 5) [] 0 (by simp) (by simp) (by simp)
  exact ⟨fuel, res, h⟩

/-- Witness for C6 with ten arcs and an explicitly covering stream. -/
theorem c6_genRandomNumbers_terminates_witness :
    10 * 4 / 5 ≤ 10
    ∧ ∃ fuel res, genRandomNumbers (fun i => i) 0 10 (10 * 4 / 5) fuel = some res := by
  refine c6_genRandomNumbers_terminates 10 (fun i => i) ?_
  intro v hv j
  refine ⟨9 * j + 10 + v, ?_⟩
  show (j + (9 * j + 10 + v)) % 10 = v
  omega

/-! ## Lemmas about the `arcStroke` callback -/

theorem ratFloor_eq_intFloor (q : ℚ) : q.floor = ⌊q⌋ := by
  rw [Rat.floor_def']
  rw [Rat.floor_def]

theorem jsRound_eq_floor (q : ℚ) : jsRound q = ⌊q + 1/2⌋ := by
  rw [jsRound, ratFloor_eq_intFloor]

theorem arcStroke_char (q : ℚ) (h0 : 0 ≤ q) (h1 : q < 1) :
    arcStroke q = if q < 1/4 then 32/100 else if q < 3/4 then 28/100 else 3/10 := by
  unfold arcStroke
  rw [jsRound_eq_floor]
  by_cases hA : q < 1/4
  · have hf : ⌊q * 2 + 1/2⌋ = 0 := by
      rw [Int.floor_eq_iff]
      push_cast
      constructor <;> linarith
    rw [hf, if_pos hA]
    rfl
  · by_cases hB : q < 3/4
    · have hf : ⌊q * 2 + 1/2⌋ = 1 := by
        rw [Int.floor_eq_iff]
        push_cast
        constructor <;> linarith [not_lt.1 hA]
      rw [hf, if_neg hA, if_pos hB]
      rfl
    · have hf : ⌊q * 2 + 1/2⌋ = 2 := by
        rw [Int.floor_eq_iff]
        push_cast
        constructor <;> linarith [not_lt.1 hB]
      rw [hf, if_neg hA, if_neg hB]
      rfl

/-- C7 (amended): each configuration pass draws every arc's stroke width
from the fixed set `{0.32, 0.28, 0.30}`, independently per arc, but not
uniformly: the rounding maps a random draw `q < 1/4` to `0.32`,
`1/4 ≤ q < 3/4` to `0.28` and `q ≥ 3/4` to `0.30`, so `0.28` is picked with
probability `1/2` and the other two with probability `1/4` each. -/
theorem c7_arcStroke_distribution (q : ℚ) (h0 : 0 ≤ q) (h1 : q < 1) :
    arcStroke q = (if q < 1/4 then 32/100 else if q < 3/4 then 28/100 else 3/10)
    ∧ arcStroke q ∈ arcStrokeChoices := by
  refine ⟨arcStroke_char q h0 h1, ?_⟩
  rw [arcStroke_char q h0 h1]
  split_ifs <;> simp [arcStrokeChoices]

/-- Witness for C7 at `q = 1/2`. -/
theorem c7_arcStroke_distribution_witness :
    (0 : ℚ) ≤ 1/2 ∧ (1/2 : ℚ) < 1 ∧ arcStroke (1/2) = 28/100
      ∧ arcStroke (1/2) ∈ arcStrokeChoices := by
  have h := c7_arcStroke_distribution (1/2) (by norm_num) (by norm_num)
  refine ⟨by norm_num, by norm_num, ?_, h.2⟩
  rw [h.1, if_neg (by norm_num), if_pos (by norm_num)]

/-- Counterexample to C7 as stated: over the twelve evenly spaced random
draws `k/12`, the stroke `0.28` occurs 6 times while `0.32` and `0.30`
occur 3 times each, so the three widths are not drawn uniformly (a uniform
draw over the 3-element set would hit each width 4 times out of 12). -/
theorem c7_counterexample :
    ([arcStroke 0, arcStroke (1/12), arcStroke (1/6), arcStroke (1/4), arcStroke (1/3),
      arcStroke (5/12), arcStroke (1/2), arcStroke (7/12), arcStroke (2/3), arcStroke (3/4),
      arcStroke (5/6), arcStroke (11/12)]
      = [32/100, 32/100, 32/100, 28/100, 28/100, 28/100, 28/100, 28/100, 28/100,
         3/10, 3/10, 3/10])
    ∧ ([(32:ℚ)/100, 32/100, 32/100, 28/100, 28/100, 28/100, 28/100, 28/100, 28/100,
        3/10, 3/10, 3/10].count (28/100) = 6)
    ∧ ([(32:ℚ)/100, 32/100, 32/100, 28/100, 28/100, 28/100, 28/100, 28/100, 28/100,
        3/10, 3/10, 3/10].count (32/100) = 3)
    ∧ ([(32:ℚ)/100, 32/100, 32/100, 28/100, 28/100, 28/100, 28/100, 28/100, 28/100,
        3/10, 3/10, 3/10].count (3/10) = 3)
    ∧ (6 : Nat) ≠ 12 / 3 := by
  have e0 : arcStroke 0 = 32/100 := by
    rw [arcStroke_char 0 (by norm_num) (by norm_num), if_pos (by norm_num)]
  have e1 : arcStroke (1/12) = 32/100 := by
    rw [arcStroke_char (1/12) (by norm_num) (by norm_num), if_pos (by norm_num)]
  have e2 : arcStroke (1/6) = 32/100 := by
    rw [arcStroke_char (1/6) (by norm_num) (by norm_num), if_pos (by norm_num)]
  have e3 : arcStroke (1/4) = 28/100 := by
    rw [arcStroke_char (1/4) (by norm_num) (by norm_num), if_neg (by norm_num),
      if_pos (by norm_num)]
  have e4 : arcStroke (1/3) = 28/100 := by
    rw [arcStroke_char (1/3) (by norm_num) (by norm_num), if_neg (by norm_num),
      if_pos (by norm_num)]
  have e5 : arcStroke (5/12) = 28/100 := by
    rw [arcStroke_char (5/12) (by norm_num) (by norm_num), if_neg (by norm_num),
      if_pos (by norm_num)]
  have e6 : arcStroke (1/2) = 28/100 := by
    rw [arcStroke_char (1/2) (by norm_num) (by norm_num), if_neg (by norm_num),
      if_pos (by norm_num)]
  have e7 : arcStroke (7/12) = 28/100 := by
    rw [arcStroke_char (7/12) (by norm_num) (by norm_num), if_neg (by norm_num),
      if_pos (by norm_num)]
  have e8 : arcStroke (2/3) = 28/100 := by
    rw [arcStroke_char (2/3) (by norm_num) (by norm_num), if_neg (by norm_num),
      if_pos (by norm_num)]
  have e9 : arcStroke (3/4) = 3/10 := by
    rw [arcStroke_char (3/4) (by norm_num) (by norm_num), if_neg (by norm_num),
      if_neg (by norm_num)]
  have e10 : arcStroke (5/6) = 3/10 := by
    rw [arcStroke_char (5/6) (by norm_num) (by norm_num), if_neg (by norm_num),
      if_neg (by norm_num)]
  have e11 : arcStroke (11/12) = 3/10 := by
    rw [arcStroke_char (11/12) (by norm_num) (by norm_num), if_neg (by norm_num),
      if_neg (by norm_num)]
  refine ⟨?_, ?_, ?_, ?_, by norm_num⟩
  · rw [e0, e1, e2, e3, e4, e5, e6, e7, e8, e9, e10, e11]
  · simp only [List.count_cons, List.count_nil, beq_iff_eq]
    norm_num
  · simp only [List.count_cons, List.count_nil, beq_iff_eq]
    norm_num
  · simp only [List.count_cons, List.count_nil, beq_iff_eq]
    norm_num

/-! ## Claims about the static arc-layer configuration -/

/-- C9 (amended): the configured arc layer takes its dash length from the
merged config (`arcLength`) and its dash animate time from the merged
config (`arcTime`), each arc's dash start delay is `order × 1`, but the
dash gap is the hard-coded constant `15`, not a merged-config value. -/
theorem c9_arc_dash_config (g : GlobeConfig) (d : Position) :
    (configureArcLayer (defaultProps g)).dashLength = (defaultProps g).arcLength
    ∧ (configureArcLayer (defaultProps g)).dashGap = 15
    ∧ (configureArcLayer (defaultProps g)).dashInitialGap d = d.order * 1
    ∧ (configureArcLayer (defaultProps g)).dashAnimateTime d = (defaultProps g).arcTime :=
  ⟨rfl, rfl, rfl, rfl⟩

/-- Counterexample to C9 as stated: with every numeric option set to `7`,
the configured dash gap is `15`, which is none of the merged
configuration's numeric fields — the gap is not taken from the config. -/
theorem c9_counterexample :
    (configureArcLayer (defaultProps sevenConfig)).dashGap = 15
    ∧ (15 : ℚ) ∉ mergedNumericFields (defaultProps sevenConfig) := by
  exact ⟨rfl, by decide⟩

end Globe
